import Mathlib

/-!
Verification development for the Auth-Template repository's TOTP / backup-code
core. The TypeScript sources under scrutiny are:
  - src/server/utils/totp.ts        (generateTOTP, verifyTOTP, options)
  - src/unnamed/part_000            (two-factor utilities: generateBackupCodes,
                                     storeBackupCodes, verifyBackupCode)
  - src/server/routes.ts            (auth-code routes)
  - src/shared/schema.ts            (backupCodes table shape)
The HOTP/TOTP computation itself is performed by the `otplib` dependency,
which is not part of the repository; where needed it is modelled from the
specification's RFC 4226 / RFC 6238 contract (spec.md §4.2-§4.3), as marked
on each definition.
-/

/-! ## RFC 4226 / 6238 primitives (SHA-1, HMAC, HOTP)

Modelled from the spec: the repository delegates code derivation to the
`otplib` dependency (not under src/); spec.md §4.2 fixes the algorithm:
8-byte big-endian counter, HMAC-SHA1, dynamic truncation, mod 10^digits,
left-zero-padded decimal rendering. Bytes are `Nat`s < 256, 32-bit words are
`Nat`s reduced mod 2^32. -/

/-- 32-bit left rotation on a `Nat` holding a value < 2^32. -/
def rotl32 (n x : Nat) : Nat :=
  ((x <<< n) ||| (x >>> (32 - n))) % 4294967296

/-- Big-endian byte rendering of `v` in exactly `n` bytes. -/
def beBytes (n v : Nat) : List Nat :=
  (List.range n).map (fun i => (v >>> (8 * (n - 1 - i))) % 256)

/-- SHA-1 round constants. -/
def sha1K (t : Nat) : Nat :=
  if t < 20 then 0x5A827999
  else if t < 40 then 0x6ED9EBA1
  else if t < 60 then 0x8F1BBCDC
  else 0xCA62C1D6

/-- SHA-1 round functions (Ch, Parity, Maj, Parity). -/
def sha1F (t b c d : Nat) : Nat :=
  if t < 20 then (b &&& c) ||| ((b ^^^ 4294967295) &&& d)
  else if t < 40 then b ^^^ c ^^^ d
  else if t < 60 then (b &&& c) ||| (b &&& d) ||| (c &&& d)
  else b ^^^ c ^^^ d

/-- Extend the 16 message words of a block to the 80-word schedule. -/
def sha1Schedule (w16 : List Nat) : List Nat :=
  (List.range 64).foldl
    (fun ws i =>
      ws ++ [rotl32 1 (ws.getD (i + 13) 0 ^^^ ws.getD (i + 8) 0 ^^^
                       ws.getD (i + 2) 0 ^^^ ws.getD i 0)])
    w16

/-- One SHA-1 compression step over a 64-byte block (bytes as `Nat`s). -/
def sha1Compress (h : List Nat) (block : List Nat) : List Nat :=
  let w16 := (List.range 16).map (fun j =>
    (block.getD (4 * j) 0 <<< 24) ||| (block.getD (4 * j + 1) 0 <<< 16) |||
    (block.getD (4 * j + 2) 0 <<< 8) ||| block.getD (4 * j + 3) 0)
  let ws := sha1Schedule w16
  let s := (List.range 80).foldl
    (fun (s : Nat × Nat × Nat × Nat × Nat) t =>
      let a := s.1
      let b := s.2.1
      let c := s.2.2.1
      let d := s.2.2.2.1
      let e := s.2.2.2.2
      ((rotl32 5 a + sha1F t b c d + e + sha1K t + ws.getD t 0) % 4294967296,
       a, rotl32 30 b, c, d))
    (h.getD 0 0, h.getD 1 0, h.getD 2 0, h.getD 3 0, h.getD 4 0)
  [(h.getD 0 0 + s.1) % 4294967296,
   (h.getD 1 0 + s.2.1) % 4294967296,
   (h.getD 2 0 + s.2.2.1) % 4294967296,
   (h.getD 3 0 + s.2.2.2.1) % 4294967296,
   (h.getD 4 0 + s.2.2.2.2) % 4294967296]

/-- SHA-1 padding: 0x80, zeros to 56 mod 64, then the bit length in 8 bytes. -/
def sha1Pad (msg : List Nat) : List Nat :=
  msg ++ [0x80] ++ List.replicate ((119 - msg.length % 64) % 64) 0 ++
    beBytes 8 (8 * msg.length)

/-- SHA-1 of a byte list, as a 20-byte list. -/
def sha1 (msg : List Nat) : List Nat :=
  let padded := sha1Pad msg
  let h := (List.range (padded.length / 64)).foldl
    (fun h i => sha1Compress h ((padded.drop (64 * i)).take 64))
    [0x67452301, 0xEFCDAB89, 0x98BADCFE, 0x10325476, 0xC3D2E1F0]
  h.foldr (fun w acc => beBytes 4 w ++ acc) []

/-- HMAC-SHA1 (RFC 2104) of `msg` under `key`, both byte lists. -/
def hmacSha1 (key msg : List Nat) : List Nat :=
  let k0 := if key.length > 64 then sha1 key else key
  let k1 := k0 ++ List.replicate (64 - k0.length) 0
  sha1 ((k1.map (fun b => b ^^^ 0x5C)) ++
        sha1 ((k1.map (fun b => b ^^^ 0x36)) ++ msg))

/-- Decimal rendering of `n` left-zero-padded to exactly `digits` characters
(spec.md §4.2 step 4; `n` is already reduced mod 10^digits). -/
def padDigits (digits n : Nat) : String :=
  ⟨(List.range digits).map (fun i =>
    Char.ofNat (48 + n / 10 ^ (digits - 1 - i) % 10))⟩

/-- RFC 4226 HOTP: HMAC the 8-byte big-endian counter, dynamically truncate to
a 31-bit integer, reduce mod 10^digits, render fixed-width. -/
def hotp (key : List Nat) (counter digits : Nat) : String :=
  let mac := hmacSha1 key (beBytes 8 counter)
  let offset := mac.getD (mac.length - 1) 0 &&& 0x0F
  let p := ((mac.getD offset 0 &&& 0x7F) <<< 24) |||
           (mac.getD (offset + 1) 0 <<< 16) |||
           (mac.getD (offset + 2) 0 <<< 8) |||
           mac.getD (offset + 3) 0
  padDigits digits (p % 10 ^ digits)

/-! ## Base32 (SecretCodec)

Modelled from the spec: base32 decoding happens inside `otplib`
(`authenticator.generate` decodes the key); spec.md §4.1 fixes it to RFC 4648
base32 over the alphabet A-Z2-7, unpadded input accepted. Decoding fails
exactly when some character is outside the alphabet. -/

/-- Value of one base32 character (A-Z → 0-25, 2-7 → 26-31), `none` for a
character outside the alphabet. -/
def base32Val (c : Char) : Option Nat :=
  if 'A' ≤ c ∧ c ≤ 'Z' then some (c.toNat - 65)
  else if '2' ≤ c ∧ c ≤ '7' then some (c.toNat - 50 + 26)
  else none

/-- Map every character to its 5-bit value; `none` as soon as any character is
outside the base32 alphabet. -/
def base32Vals : List Char → Option (List Nat)
  | [] => some []
  | c :: cs =>
    match base32Val c, base32Vals cs with
    | some v, some vs => some (v :: vs)
    | _, _ => none

/-- RFC 4648 base32 decode (unpadded): concatenate the 5-bit values in order
and take the leading whole bytes, dropping leftover low bits. -/
def base32Decode (s : String) : Option (List Nat) :=
  match base32Vals s.data with
  | none => none
  | some vs =>
    let nbytes := 5 * vs.length / 8
    let big := (vs.foldl (fun a v => a * 32 + v) 0) >>> (5 * vs.length % 8)
    some ((List.range nbytes).map (fun i => (big >>> (8 * (nbytes - 1 - i))) % 256))

/-! ## Secret normalization (src/server/utils/totp.ts)

`secret.replace(/\s+/g, '').toUpperCase()`: drop whitespace, uppercase.
Whitespace and uppercasing are modelled over the ASCII range (plus the common
Unicode members of JavaScript's whitespace class); every claim only involves
ASCII input. -/

/-- Characters matched by the JavaScript regex class backslash-s (tab, LF, VT,
FF, CR, space, NBSP, line/paragraph separator, BOM). -/
def isJsWhitespace (c : Char) : Bool :=
  c.toNat == 9 || c.toNat == 10 || c.toNat == 11 || c.toNat == 12 ||
  c.toNat == 13 || c.toNat == 32 || c.toNat == 160 || c.toNat == 8232 ||
  c.toNat == 8233 || c.toNat == 65279

/-- ASCII uppercasing of one character, as `toUpperCase` acts on a-z. -/
def toUpperAscii (c : Char) : Char :=
  if 'a' ≤ c ∧ c ≤ 'z' then Char.ofNat (c.toNat - 32) else c

/-- The secret clean-up performed at the top of `generateTOTP` / `verifyTOTP`
(src/server/utils/totp.ts lines 20, 43): remove all whitespace, uppercase. -/
def normalizeSecret (raw : String) : String :=
  ⟨(raw.data.filter (fun c => !isJsWhitespace c)).map toUpperAscii⟩

/-! ## generateTOTP / verifyTOTP (src/server/utils/totp.ts lines 17-51)

The wall clock (`Date.now() / 1000`, Unix seconds) is the explicit `now`
argument. The configured parameters (totp.ts lines 4-9) are step = 30,
digits = 6, window = 1, SHA-1. The inner `authenticator.generate` /
`authenticator.verify` calls belong to `otplib` (a dependency, not under
src/); they are modelled from spec.md §4.2-§4.3: generate the code for
`floor(now / 30)`, verify by comparing against every step within the window.
A failed base32 decode is the thrown-and-caught error path. -/

/-- `generateTOTP(secret, timeOffset)` (totp.ts lines 17-37): normalize the
secret, compute the offset-adjusted time — which the source never feeds to
`authenticator.generate` — and return the code for the current step, or the
`Invalid secret key format` error when the secret does not decode. -/
def generateTOTP (secret : String) (now : Nat) (timeOffset : Int := 0) : Except String String :=
  let cleanSecret := normalizeSecret secret
  let currentStep := now / 30
  let offsetStep := Int.fdiv timeOffset 30
  let _time : Int := ((currentStep : Int) + offsetStep) * 30
  match base32Decode cleanSecret with
  | some key => .ok (hotp key currentStep 6)
  | none => .error "Invalid secret key format"

/-- Modelled from the spec: `authenticator.verify` (otplib dependency, not
under src/), per spec.md §4.3 — compare the candidate against
`generate(secret, current + k)` for every integer k in [-window, +window],
true on first match. Steps below 0 (only possible in the first half-minute of
the epoch) have no counter and are skipped. -/
def totpCheck (token : String) (key : List Nat) (now : Nat) (window : Nat) : Bool :=
  let current := now / 30
  (List.range (2 * window + 1)).any (fun i =>
    decide (window ≤ current + i) && (hotp key (current + i - window) 6 == token))

/-- `verifyTOTP(token, secret)` (totp.ts lines 40-51): normalize the secret
and run the library check under the configured window = 1; the surrounding
`try/catch` turns any failure (an undecodable secret) into `false`. -/
def verifyTOTP (token secret : String) (now : Nat) : Bool :=
  match base32Decode (normalizeSecret secret) with
  | some key => totpCheck token key now 1
  | none => false

/-- The RFC 6238 test-vector secret (base32 of ASCII "12345678901234567890"). -/
def katSecret : String := "GEZDGNBVGY3TQOJQGEZDGNBVGY3TQOJQ"

/-- ASCII bytes of "12345678901234567890", the decoded test-vector key. -/
def katKey : List Nat :=
  [49, 50, 51, 52, 53, 54, 55, 56, 57, 48, 49, 50, 51, 52, 53, 54, 55, 56, 57, 48]

/-! ## Backup codes (src/unnamed/part_000, src/shared/schema.ts)

The `backup_codes` table rows (schema.ts lines 22-27): serial id, userId,
code text, `used` boolean defaulting to false. The database is a list of
rows; `db.select().from(backupCodes).where(and(...))` destructured as
`const [backupCode] = ...` takes the first matching row, and
`db.update(...).set({used: true}).where(eq(backupCodes.id, id))` maps over
the table guarded by id only. -/

/-- One row of the `backup_codes` table (src/shared/schema.ts lines 22-27). -/
structure BackupCodeRecord where
  id : Nat
  userId : Nat
  code : String
  used : Bool
deriving DecidableEq, Repr

/-- The first row matching `userId = u AND code = c AND used = false`
(the SELECT of `verifyBackupCode`, part_000 lines 147-156). -/
def selectUnusedBackupCode (db : List BackupCodeRecord) (u : Nat) (c : String) :
    Option BackupCodeRecord :=
  db.find? (fun r => r.userId == u && r.code == c && r.used == false)

/-- `db.update(backupCodes).set({used: true}).where(eq(backupCodes.id, i))`
(part_000 lines 159-162): the update is guarded by id only — there is no
`used = false` condition on the write. -/
def markUsedById (db : List BackupCodeRecord) (i : Nat) : List BackupCodeRecord :=
  db.map (fun r => if r.id == i then { r with used := true } else r)

/-- The read phase of `verifyBackupCode`: the id of the first matching unused
row, if any. -/
def redeemSelect (db : List BackupCodeRecord) (u : Nat) (c : String) : Option Nat :=
  (selectUnusedBackupCode db u c).map (fun r => r.id)

/-- The write phase of `verifyBackupCode`: given the id read earlier, mark it
used and report success; report failure when nothing was found. The two
phases are separate statements in the source (SELECT then UPDATE), so a
concurrent interleaving may run another transaction's phases between them. -/
def redeemMark (db : List BackupCodeRecord) (found : Option Nat) :
    Bool × List BackupCodeRecord :=
  match found with
  | some i => (true, markUsedById db i)
  | none => (false, db)

/-- `verifyBackupCode(userId, code)` (part_000 lines 146-167) run atomically
(no interleaving): SELECT the first unused matching row, and if found UPDATE
it to used and return true; otherwise return false. -/
def verifyBackupCode (db : List BackupCodeRecord) (u : Nat) (c : String) :
    Bool × List BackupCodeRecord :=
  redeemMark db (redeemSelect db u c)

/-- `storeBackupCodes(userId, codes)` (part_000 lines 116-124): insert one row
per code with `used: false`; the serial primary key assigns consecutive ids
from the sequence value `firstId`. -/
def storeBackupCodes (db : List BackupCodeRecord) (u : Nat) (codes : List String)
    (firstId : Nat) : List BackupCodeRecord :=
  db ++ codes.enum.map (fun p => ⟨firstId + p.1, u, p.2, false⟩)

/-- The core operations that touch the `backup_codes` table. -/
inductive BackupOp where
  | store (u : Nat) (codes : List String) (firstId : Nat)
  | redeem (u : Nat) (c : String)

/-- Effect of one operation on the table. -/
def applyOp (db : List BackupCodeRecord) : BackupOp → List BackupCodeRecord
  | .store u codes firstId => storeBackupCodes db u codes firstId
  | .redeem u c => (verifyBackupCode db u c).2

/-! ## Backup-code generation (src/unnamed/part_000 lines 108-113)

`Array.from({length: 10}, () => crypto.randomBytes(4).toString("hex").toUpperCase())`.
The secure random source is modelled as an explicit argument: `rand i` is the
byte list returned by the i-th `crypto.randomBytes(4)` call. -/

/-- Uppercase hexadecimal digit for a value < 16. -/
def hexDigit (n : Nat) : Char :=
  Char.ofNat (if n < 10 then 48 + n else 55 + n)

/-- Two uppercase hex characters per byte, in order — `Buffer.toString("hex")`
followed by `toUpperCase()`. -/
def hexChars : List Nat → List Char
  | [] => []
  | b :: bs => hexDigit (b / 16) :: hexDigit (b % 16) :: hexChars bs

/-- Byte list rendered as an uppercase hexadecimal string. -/
def bytesToHexUpper (bs : List Nat) : String := ⟨hexChars bs⟩

/-- `generateBackupCodes()` (part_000 lines 108-113): ten codes, the i-th
being the uppercase hex rendering of the i-th 4-byte random draw. -/
def generateBackupCodes (rand : Nat → List Nat) : List String :=
  (List.range 10).map (fun i => bytesToHexUpper (rand i))

/-! ## Claim theorems -/

set_option maxRecDepth 100000
set_option maxHeartbeats 1600000

/-- C1: For the secret "GEZDGNBVGY3TQOJQGEZDGNBVGY3TQOJQ" with digits = 6,
step = 30 s and SHA-1, the TOTP code generated at Unix time 59 (step index 1)
is the string "287082" (RFC 6238 known-answer vector). -/
theorem generateTOTP_kat_t59 : generateTOTP katSecret 59 0 = .ok "287082" := rfl

/-- C10: the `timeOffset` parameter of `generateTOTP` has no effect on the
result: at the same instant, any two offsets produce the same output, because
the offset-adjusted time the function computes is never passed to the
underlying code generation. -/
theorem generateTOTP_timeOffset_irrelevant (secret : String) (now : Nat)
    (o1 o2 : Int) : generateTOTP secret now o1 = generateTOTP secret now o2 := rfl

/-- `generateTOTP` unfolded to its branches (proof convenience). -/
lemma generateTOTP_eq (secret : String) (now : Nat) (off : Int) :
    generateTOTP secret now off =
      match base32Decode (normalizeSecret secret) with
      | some key => Except.ok (hotp key (now / 30) 6)
      | none => Except.error "Invalid secret key format" := rfl

/-- C6: code generation is a deterministic pure function of its inputs — in
particular, any two instants with the same step index (and any offsets) give
identical results for the same secret, with no hidden state. -/
theorem generateTOTP_deterministic (secret : String) (now1 now2 : Nat)
    (o1 o2 : Int) (h : now1 / 30 = now2 / 30) :
    generateTOTP secret now1 o1 = generateTOTP secret now2 o2 := by
  rw [generateTOTP_eq, generateTOTP_eq, h]

/-- Witness for C6 at concrete inputs: Unix times 59 and 45 share step 1. -/
theorem generateTOTP_deterministic_witness :
    generateTOTP katSecret 59 2 = generateTOTP katSecret 45 17 :=
  generateTOTP_deterministic katSecret 59 45 2 17 (by decide)

/-- C2: with the configured window 1, `verifyTOTP` accepts exactly the codes
generated for a step index s with |s - current| ≤ 1, i.e. the candidate
matches `generate(secret, current + k)` for some -1 ≤ k ≤ 1. -/
theorem verifyTOTP_window_iff (secret : String) (key : List Nat) (token : String)
    (now : Nat) (hdec : base32Decode (normalizeSecret secret) = some key) :
    (verifyTOTP token secret now = true ↔
      ∃ s : Nat, now / 30 ≤ s + 1 ∧ s ≤ now / 30 + 1 ∧ hotp key s 6 = token) := by
  have hv : verifyTOTP token secret now = totpCheck token key now 1 := by
    unfold verifyTOTP
    rw [hdec]
  rw [hv]
  unfold totpCheck
  simp only [List.any_eq_true, List.mem_range, Bool.and_eq_true, decide_eq_true_eq,
    beq_iff_eq]
  constructor
  · rintro ⟨i, ⟨hi, hg, he⟩⟩
    exact ⟨now / 30 + i - 1, by omega, by omega, he⟩
  · rintro ⟨s, h1, h2, he⟩
    refine ⟨s + 1 - now / 30, ⟨by omega, by omega, ?_⟩⟩
    have hs : now / 30 + (s + 1 - now / 30) - 1 = s := by omega
    rw [hs]
    exact he

/-- Witness for C2: the step-1 code "287082" is accepted at Unix time 59. -/
theorem verifyTOTP_window_iff_witness : verifyTOTP "287082" katSecret 59 = true :=
  (verifyTOTP_window_iff katSecret katKey "287082" 59 (by rfl)).mpr
    ⟨1, by decide, by decide, by rfl⟩

/-- C8: the redeem path is not an atomic compare-and-set: its SELECT and its
UPDATE (which is guarded by id only, not by `used = false`) are separate
steps, so in the interleaving select-A, select-B, update-A, update-B of two
redemptions of the same unconsumed code, both callers observe success — the
code is used twice, contradicting the exactly-one-winner requirement. -/
theorem verifyBackupCode_race_double_success :
    (redeemMark [⟨1, 7, "1A2B3C4D", false⟩]
        (redeemSelect [⟨1, 7, "1A2B3C4D", false⟩] 7 "1A2B3C4D")).1 = true ∧
    (redeemMark
        (redeemMark [⟨1, 7, "1A2B3C4D", false⟩]
            (redeemSelect [⟨1, 7, "1A2B3C4D", false⟩] 7 "1A2B3C4D")).2
        (redeemSelect [⟨1, 7, "1A2B3C4D", false⟩] 7 "1A2B3C4D")).1 = true := by
  decide

/-- The row predicate of `verifyBackupCode`'s SELECT, as a Prop. -/
lemma backupMatch_iff (r : BackupCodeRecord) (u : Nat) (c : String) :
    (r.userId == u && r.code == c && r.used == false) = true ↔
      r.userId = u ∧ r.code = c ∧ r.used = false := by
  simp [Bool.and_eq_true, and_assoc]

/-- C3: redeeming a backup code is one-shot under sequential execution. If
the rows for one owner hold a given code value at most once (the spec's
per-owner uniqueness invariant), then after a successful redeem every later
redeem of the same code fails, and a redeem of a code never stored for the
owner also fails — both with the same uniform `false` result. -/
theorem verifyBackupCode_one_shot (db : List BackupCodeRecord) (u : Nat) (c : String)
    (huniq : ∀ r ∈ db, ∀ r' ∈ db,
      r.userId = u → r.code = c → r'.userId = u → r'.code = c → r = r') :
    ((verifyBackupCode db u c).1 = true →
      (verifyBackupCode (verifyBackupCode db u c).2 u c).1 = false) ∧
    ((∀ r ∈ db, ¬(r.userId = u ∧ r.code = c)) →
      (verifyBackupCode db u c).1 = false) := by
  constructor
  · intro hsucc
    rcases hfind : db.find? (fun r => r.userId == u && r.code == c && r.used == false)
      with - | r
    · exfalso
      have : (verifyBackupCode db u c).1 = false := by
        unfold verifyBackupCode redeemSelect selectUnusedBackupCode
        rw [hfind]
        rfl
      rw [this] at hsucc
      exact Bool.false_ne_true hsucc
    · have hp0 := List.find?_some hfind
      have hp := (backupMatch_iff r u c).mp hp0
      have hr : r ∈ db := List.mem_of_find?_eq_some hfind
      have hdb2 : (verifyBackupCode db u c).2 = markUsedById db r.id := by
        unfold verifyBackupCode redeemSelect selectUnusedBackupCode
        rw [hfind]
        rfl
      rw [hdb2]
      have hnone : (markUsedById db r.id).find?
          (fun r' => r'.userId == u && r'.code == c && r'.used == false) = none := by
        rw [List.find?_eq_none]
        intro x hx
        rcases List.mem_map.mp hx with ⟨r0, hr0, hfx⟩
        intro hpx
        have hpx' := (backupMatch_iff x u c).mp hpx
        by_cases hid : (r0.id == r.id) = true
        · rw [if_pos hid] at hfx
          rw [← hfx] at hpx'
          exact absurd hpx'.2.2 (by simp)
        · rw [if_neg hid] at hfx
          subst hfx
          have : r0 = r :=
            huniq r0 hr0 r hr hpx'.1 hpx'.2.1 hp.1 hp.2.1
          rw [this] at hid
          exact hid (beq_self_eq_true r.id)
      unfold verifyBackupCode redeemSelect selectUnusedBackupCode
      rw [hnone]
      rfl
  · intro hnostore
    have hnone : db.find? (fun r => r.userId == u && r.code == c && r.used == false)
        = none := by
      rw [List.find?_eq_none]
      intro x hx hpx
      have hpx' := (backupMatch_iff x u c).mp hpx
      exact hnostore x hx ⟨hpx'.1, hpx'.2.1⟩
    unfold verifyBackupCode redeemSelect selectUnusedBackupCode
    rw [hnone]
    rfl

/-- Witness for C3: one stored code for user 7; after redeeming it, the same
redeem fails, and redeeming a code never stored for user 9 fails too. -/
theorem verifyBackupCode_one_shot_witness :
    (verifyBackupCode
      (verifyBackupCode [⟨1, 7, "0F3355AA", false⟩] 7 "0F3355AA").2 7 "0F3355AA").1
        = false ∧
    (verifyBackupCode [⟨1, 7, "0F3355AA", false⟩] 9 "0F3355AA").1 = false :=
  ⟨(verifyBackupCode_one_shot [⟨1, 7, "0F3355AA", false⟩] 7 "0F3355AA"
      (by decide)).1 (by decide),
   (verifyBackupCode_one_shot [⟨1, 7, "0F3355AA", false⟩] 9 "0F3355AA"
      (by decide)).2 (by decide)⟩

/-- One core operation never clears a row's `used` flag and never changes the
id, owner or code of an existing row. -/
lemma applyOp_preserves_used (op : BackupOp) (db : List BackupCodeRecord) (i : Nat)
    (hu : db[i]?.map BackupCodeRecord.used = some true) :
    (applyOp db op)[i]?.map BackupCodeRecord.used = some true ∧
    (applyOp db op)[i]?.map BackupCodeRecord.id = db[i]?.map BackupCodeRecord.id ∧
    (applyOp db op)[i]?.map BackupCodeRecord.userId = db[i]?.map BackupCodeRecord.userId ∧
    (applyOp db op)[i]?.map BackupCodeRecord.code = db[i]?.map BackupCodeRecord.code := by
  rcases hg : db[i]? with - | r
  · rw [hg] at hu
    exact absurd hu (by simp)
  · rw [hg] at hu
    have hused : r.used = true := by
      simpa using hu
    have hlt : i < db.length := by
      rcases List.getElem?_eq_some_iff.mp hg with ⟨h, -⟩
      exact h
    cases op with
    | store u codes firstId =>
      have happ : (storeBackupCodes db u codes firstId)[i]? = db[i]? :=
        List.getElem?_append_left hlt
      unfold applyOp
      rw [happ, hg]
      simp [hused]
    | redeem u c =>
      have happ : applyOp db (.redeem u c) = (redeemMark db (redeemSelect db u c)).2 := rfl
      rw [happ]
      rcases hsel : redeemSelect db u c with - | j
      · have h2 : (redeemMark db none).2 = db := rfl
        rw [h2, hg]
        simp [hused]
      · have h2 : (redeemMark db (some j)).2 = markUsedById db j := rfl
        rw [h2]
        have hmap : (markUsedById db j)[i]? =
            Option.map (fun r => if r.id == j then { r with used := true } else r) db[i]? := by
          unfold markUsedById
          rw [List.getElem?_map]
        rw [hmap, hg]
        by_cases hj : r.id = j
        · simp [beq_iff_eq, hj]
        · simp [beq_iff_eq, hj, hused]

/-- C4: the consumed flag is monotone — across any sequence of core
operations (storing batches, redeeming codes), a row whose `used` flag is
true keeps it true (and keeps its id, owner and code value), so no backup
code ever transitions from consumed back to unconsumed. -/
theorem backupCode_used_monotone (db : List BackupCodeRecord) (ops : List BackupOp)
    (i : Nat) (hu : db[i]?.map BackupCodeRecord.used = some true) :
    (ops.foldl applyOp db)[i]?.map BackupCodeRecord.used = some true ∧
    (ops.foldl applyOp db)[i]?.map BackupCodeRecord.id = db[i]?.map BackupCodeRecord.id ∧
    (ops.foldl applyOp db)[i]?.map BackupCodeRecord.userId
      = db[i]?.map BackupCodeRecord.userId ∧
    (ops.foldl applyOp db)[i]?.map BackupCodeRecord.code
      = db[i]?.map BackupCodeRecord.code := by
  induction ops generalizing db with
  | nil => exact ⟨hu, rfl, rfl, rfl⟩
  | cons op ops ih =>
    have hstep := applyOp_preserves_used op db i hu
    have hrest := ih (applyOp db op) hstep.1
    refine ⟨hrest.1, ?_, ?_, ?_⟩
    · rw [List.foldl_cons, hrest.2.1, hstep.2.1]
    · rw [List.foldl_cons, hrest.2.2.1, hstep.2.2.1]
    · rw [List.foldl_cons, hrest.2.2.2, hstep.2.2.2]

/-- Witness for C4: a consumed row survives a redeem and a store unchanged. -/
theorem backupCode_used_monotone_witness :
    ([BackupOp.redeem 7 "11112222", BackupOp.store 7 ["33334444"] 2].foldl applyOp
      [⟨1, 7, "11112222", true⟩])[0]?.map BackupCodeRecord.used = some true :=
  (backupCode_used_monotone [⟨1, 7, "11112222", true⟩]
    [BackupOp.redeem 7 "11112222", BackupOp.store 7 ["33334444"] 2] 0 (by decide)).1

/-- `Char.ofNat` round-trips on codepoints below the surrogate range. -/
lemma toNat_ofNat_valid (n : Nat) (h : n < 55296) : (Char.ofNat n).toNat = n := by
  have hv : n.isValidChar := Or.inl h
  rw [Char.ofNat, dif_pos hv]
  rfl

/-- Character order transported to codepoints. -/
lemma char_le_iff (a c : Char) : a ≤ c ↔ a.toNat ≤ c.toNat := by
  rw [Char.le_def, UInt32.le_def, BitVec.le_def]
  rfl

/-- Character equality transported to codepoints. -/
lemma char_eq_iff (a c : Char) : a = c ↔ a.toNat = c.toNat := by
  constructor
  · intro h
    rw [h]
  · intro h
    have h' := congrArg Char.ofNat h
    rwa [Char.ofNat_toNat, Char.ofNat_toNat] at h'

/-- Codepoint characterization of the whitespace class. -/
lemma isJsWhitespace_iff (c : Char) : isJsWhitespace c = true ↔
    (c.toNat = 9 ∨ c.toNat = 10 ∨ c.toNat = 11 ∨ c.toNat = 12 ∨ c.toNat = 13 ∨
     c.toNat = 32 ∨ c.toNat = 160 ∨ c.toNat = 8232 ∨ c.toNat = 8233 ∨
     c.toNat = 65279) := by
  simp [isJsWhitespace, Bool.or_eq_true, beq_iff_eq, or_assoc]

/-- The codepoint produced by `toUpperAscii`. -/
lemma toUpperAscii_toNat (c : Char) : (toUpperAscii c).toNat =
    if 97 ≤ c.toNat ∧ c.toNat ≤ 122 then c.toNat - 32 else c.toNat := by
  unfold toUpperAscii
  by_cases h : 'a' ≤ c ∧ c ≤ 'z'
  · have h97 : 97 ≤ c.toNat := (char_le_iff 'a' c).mp h.1
    have h122 : c.toNat ≤ 122 := (char_le_iff c 'z').mp h.2
    rw [if_pos h, if_pos ⟨h97, h122⟩, toNat_ofNat_valid _ (by omega)]
  · have hn : ¬(97 ≤ c.toNat ∧ c.toNat ≤ 122) := by
      intro hn
      exact h ⟨(char_le_iff 'a' c).mpr hn.1, (char_le_iff c 'z').mpr hn.2⟩
    rw [if_neg h, if_neg hn]

/-- Uppercasing never produces a whitespace character (and removes none). -/
lemma isJsWhitespace_toUpperAscii (c : Char) :
    isJsWhitespace (toUpperAscii c) = isJsWhitespace c := by
  have h1 := toUpperAscii_toNat c
  by_cases h : 97 ≤ c.toNat ∧ c.toNat ≤ 122
  · rw [if_pos h] at h1
    have ha : isJsWhitespace (toUpperAscii c) = false := by
      rw [Bool.eq_false_iff, ne_eq, isJsWhitespace_iff, h1]
      omega
    have hb : isJsWhitespace c = false := by
      rw [Bool.eq_false_iff, ne_eq, isJsWhitespace_iff]
      omega
    rw [ha, hb]
  · rw [if_neg h] at h1
    rw [(char_eq_iff (toUpperAscii c) c).mpr h1]

/-- `base32Vals` fails exactly when some character is outside the alphabet. -/
lemma base32Vals_eq_none_iff (cs : List Char) :
    base32Vals cs = none ↔ ∃ c ∈ cs, base32Val c = none := by
  induction cs with
  | nil => simp [base32Vals]
  | cons c cs ih =>
    rcases h : base32Val c with - | v <;>
      rcases hrest : base32Vals cs with - | vs <;>
        simp [base32Vals, h, hrest, ← ih]

/-- `base32Decode` fails exactly when `base32Vals` does. -/
lemma base32Decode_eq_none_iff (s : String) :
    base32Decode s = none ↔ base32Vals s.data = none := by
  unfold base32Decode
  rcases h : base32Vals s.data with - | vs <;> simp [h]

/-- C5: secret normalization strips all whitespace and uppercases ASCII
letters, and `generateTOTP` fails with the `Invalid secret key format` error
exactly when some remaining character is outside the base32 alphabet A-Z2-7;
in particular the input "not-base32!!" is rejected with that error. -/
theorem normalizeSecret_rejects_non_base32 (raw : String) (now : Nat) (off : Int) :
    (∀ c ∈ (normalizeSecret raw).data, isJsWhitespace c = false) ∧
    (∀ c ∈ (normalizeSecret raw).data, ¬('a' ≤ c ∧ c ≤ 'z')) ∧
    ((∃ c ∈ (normalizeSecret raw).data, base32Val c = none) ↔
      generateTOTP raw now off = Except.error "Invalid secret key format") ∧
    generateTOTP "not-base32!!" 59 0 = Except.error "Invalid secret key format" := by
  refine ⟨?_, ?_, ?_, by rfl⟩
  · intro c hc
    obtain ⟨c0, hc0, rfl⟩ := List.mem_map.mp hc
    have hf := (List.mem_filter.mp hc0).2
    rw [isJsWhitespace_toUpperAscii]
    simpa using hf
  · intro c hc hlow
    obtain ⟨c0, hc0, rfl⟩ := List.mem_map.mp hc
    have h97 : 97 ≤ (toUpperAscii c0).toNat := (char_le_iff 'a' _).mp hlow.1
    have h122 : (toUpperAscii c0).toNat ≤ 122 := (char_le_iff _ 'z').mp hlow.2
    have h1 := toUpperAscii_toNat c0
    by_cases h : 97 ≤ c0.toNat ∧ c0.toNat ≤ 122
    · rw [if_pos h] at h1
      omega
    · rw [if_neg h] at h1
      rw [h1] at h97 h122
      exact h ⟨h97, h122⟩
  · rw [generateTOTP_eq]
    have hchain : (∃ c ∈ (normalizeSecret raw).data, base32Val c = none) ↔
        base32Decode (normalizeSecret raw) = none := by
      rw [base32Decode_eq_none_iff, base32Vals_eq_none_iff]
    rw [hchain]
    rcases h : base32Decode (normalizeSecret raw) with - | key <;> simp [h]

/-- Witness for C5: on "not-base32!!" the normalized form keeps the character
'-' which is outside the alphabet, and generation reports the format error. -/
theorem normalizeSecret_rejects_non_base32_witness :
    isJsWhitespace '-' = false ∧
    generateTOTP "not-base32!!" 59 0 = Except.error "Invalid secret key format" :=
  ⟨(normalizeSecret_rejects_non_base32 "not-base32!!" 59 0).1 '-' (by decide),
   (normalizeSecret_rejects_non_base32 "not-base32!!" 59 0).2.2.2⟩

/-- Fixed-width rendering always has exactly `digits` characters. -/
lemma padDigits_length (d n : Nat) : (padDigits d n).length = d := by
  simp [padDigits, String.length]

/-- Every character of a rendered code is a decimal digit. -/
lemma padDigits_digit (d n : Nat) : ∀ c ∈ (padDigits d n).data, '0' ≤ c ∧ c ≤ '9' := by
  intro c hc
  obtain ⟨i, hi, rfl⟩ := List.mem_map.mp hc
  have hm : n / 10 ^ (d - 1 - i) % 10 < 10 := Nat.mod_lt _ (by norm_num)
  have hv : (Char.ofNat (48 + n / 10 ^ (d - 1 - i) % 10)).toNat
      = 48 + n / 10 ^ (d - 1 - i) % 10 := toNat_ofNat_valid _ (by omega)
  constructor
  · rw [char_le_iff, hv]
    have h0 : ('0' : Char).toNat = 48 := rfl
    rw [h0]
    omega
  · rw [char_le_iff, hv]
    have h9 : ('9' : Char).toNat = 57 := rfl
    rw [h9]
    omega

/-- `hotp` always returns a fixed-width rendering. -/
lemma hotp_is_padDigits (key : List Nat) (c d : Nat) :
    ∃ m, hotp key c d = padDigits d m := ⟨_, rfl⟩

/-- C9 counterexample: a malformed candidate is not rejected with any
`InvalidCodeFormat` error — `verifyTOTP`'s only outcomes are booleans, and a
non-numeric candidate yields the same plain `false` that a wrong well-formed
candidate yields. -/
theorem verifyTOTP_malformed_not_an_error :
    verifyTOTP "ABC" katSecret 59 = false ∧
    verifyTOTP "000000" katSecret 59 = false := ⟨rfl, rfl⟩

/-- C9 (amended): `verifyTOTP` performs no candidate format validation and
has no error outcome; a candidate that is not exactly six decimal digits is
simply compared and returns `false` (every generated code being a six-digit
decimal string). -/
theorem verifyTOTP_malformed_false (token secret : String) (now : Nat)
    (h : token.length ≠ 6 ∨ ∃ c ∈ token.data, ¬('0' ≤ c ∧ c ≤ '9')) :
    verifyTOTP token secret now = false := by
  unfold verifyTOTP
  rcases hdec : base32Decode (normalizeSecret secret) with - | key
  · rfl
  · show totpCheck token key now 1 = false
    unfold totpCheck
    rw [List.any_eq_false]
    intro i hi
    simp only [Bool.and_eq_true, decide_eq_true_eq, beq_iff_eq, not_and]
    intro hg heq
    obtain ⟨m, hm⟩ := hotp_is_padDigits key (now / 30 + i - 1) 6
    rw [hm] at heq
    rcases h with hlen | ⟨c, hc, hdig⟩
    · apply hlen
      rw [← heq, padDigits_length]
    · rw [← heq] at hc
      exact hdig (padDigits_digit 6 m c hc)

/-- Witness for C9: a five-character candidate returns plain `false`. -/
theorem verifyTOTP_malformed_false_witness :
    verifyTOTP "12345" katSecret 59 = false :=
  verifyTOTP_malformed_false "12345" katSecret 59 (Or.inl (by decide))

/-- The sixteen uppercase hexadecimal characters. -/
def uppercaseHexAlphabet : List Char :=
  ['0', '1', '2', '3', '4', '5', '6', '7', '8', '9', 'A', 'B', 'C', 'D', 'E', 'F']

/-- Two characters per byte. -/
lemma hexChars_length (bs : List Nat) : (hexChars bs).length = 2 * bs.length := by
  induction bs with
  | nil => rfl
  | cons b bs ih =>
    simp [hexChars, ih]
    omega

/-- Hex digits of values < 16 lie in the uppercase alphabet. -/
lemma hexDigit_mem (m : Nat) (h : m < 16) : hexDigit m ∈ uppercaseHexAlphabet := by
  have hall : ∀ m' < 16, hexDigit m' ∈ uppercaseHexAlphabet := by decide
  exact hall m h

/-- All characters of a rendered byte list lie in the uppercase alphabet. -/
lemma hexChars_mem (bs : List Nat) (hb : ∀ b ∈ bs, b < 256) :
    ∀ c ∈ hexChars bs, c ∈ uppercaseHexAlphabet := by
  induction bs with
  | nil => simp [hexChars]
  | cons b bs ih =>
    intro c hc
    have hb0 : b < 256 := hb b (by simp)
    simp only [hexChars, List.mem_cons] at hc
    rcases hc with rfl | rfl | hc'
    · exact hexDigit_mem _ (by omega)
    · exact hexDigit_mem _ (by omega)
    · exact ih (fun x hx => hb x (by simp [hx])) c hc'

/-- `hexDigit` is injective below 16. -/
lemma hexDigit_inj : ∀ m < 16, ∀ m' < 16, hexDigit m = hexDigit m' → m = m' := by
  decide

/-- The hex rendering is injective on byte lists. -/
lemma hexChars_inj (bs : List Nat) : ∀ bs' : List Nat, (∀ b ∈ bs, b < 256) →
    (∀ b ∈ bs', b < 256) → hexChars bs = hexChars bs' → bs = bs' := by
  induction bs with
  | nil =>
    intro bs' _ _ h
    cases bs' with
    | nil => rfl
    | cons b' t' => exact absurd h (by simp [hexChars])
  | cons b t ih =>
    intro bs' hb hb' h
    cases bs' with
    | nil => exact absurd h (by simp [hexChars])
    | cons b' t' =>
      simp only [hexChars, List.cons.injEq] at h
      obtain ⟨h1, h2, h3⟩ := h
      have hb0 : b < 256 := hb b (by simp)
      have hb0' : b' < 256 := hb' b' (by simp)
      have hd : b / 16 = b' / 16 := hexDigit_inj _ (by omega) _ (by omega) h1
      have hmod : b % 16 = b' % 16 := hexDigit_inj _ (by omega) _ (by omega) h2
      have hbb : b = b' := by omega
      rw [hbb, ih t' (fun x hx => hb x (by simp [hx]))
        (fun x hx => hb' x (by simp [hx])) h3]

/-- C7 counterexample: the batch generator performs no collision check, so a
random source that repeats a draw yields repeated codes — the ten codes are
not always pairwise distinct. -/
theorem generateBackupCodes_not_always_distinct :
    ¬ (generateBackupCodes (fun _ => [0, 0, 0, 0])).Nodup := by decide

/-- C7 (amended): a batch holds exactly ten codes, each an eight-character
uppercase hexadecimal rendering of its 4-byte (32-bit) random draw, and the
codes are pairwise distinct whenever the ten underlying draws are pairwise
distinct (no collision check is performed by the code itself). -/
theorem generateBackupCodes_props (rand : Nat → List Nat)
    (hlen : ∀ i, (rand i).length = 4) (hbyte : ∀ i, ∀ b ∈ rand i, b < 256) :
    (generateBackupCodes rand).length = 10 ∧
    (∀ code ∈ generateBackupCodes rand, code.length = 8 ∧
      ∀ ch ∈ code.data, ch ∈ uppercaseHexAlphabet) ∧
    (((List.range 10).map rand).Nodup → (generateBackupCodes rand).Nodup) := by
  refine ⟨by simp [generateBackupCodes], ?_, ?_⟩
  · intro code hcode
    obtain ⟨i, hi, rfl⟩ := List.mem_map.mp hcode
    constructor
    · show (hexChars (rand i)).length = 8
      rw [hexChars_length, hlen i]
    · intro ch hch
      exact hexChars_mem (rand i) (hbyte i) ch hch
  · intro hnd
    have hmm : generateBackupCodes rand =
        List.map bytesToHexUpper ((List.range 10).map rand) := by
      rw [List.map_map]
      rfl
    rw [hmm]
    refine List.Nodup.map_on ?_ hnd
    intro x hx y hy hxy
    obtain ⟨i, -, rfl⟩ := List.mem_map.mp hx
    obtain ⟨j, -, rfl⟩ := List.mem_map.mp hy
    exact hexChars_inj (rand i) (rand j) (hbyte i) (hbyte j)
      (congrArg String.data hxy)

/-- Witness for C7: a source whose first byte varies gives ten distinct
eight-character codes. -/
theorem generateBackupCodes_props_witness :
    (generateBackupCodes (fun i => [i % 256, 17, 34, 51])).length = 10 ∧
    (generateBackupCodes (fun i => [i % 256, 17, 34, 51])).Nodup :=
  ⟨(generateBackupCodes_props (fun i => [i % 256, 17, 34, 51]) (fun _ => rfl)
      (by
        intro i b hb
        simp only [List.mem_cons, List.not_mem_nil, or_false] at hb
        rcases hb with rfl | rfl | rfl | rfl <;> omega)).1,
   (generateBackupCodes_props (fun i => [i % 256, 17, 34, 51]) (fun _ => rfl)
      (by
        intro i b hb
        simp only [List.mem_cons, List.not_mem_nil, or_false] at hb
        rcases hb with rfl | rfl | rfl | rfl <;> omega)).2.2 (by decide)⟩
